import Mathlib

/-!
Shallow embedding of the RAG core of the Bloocube AI service
(src/src/models/vector_store.py and src/src/models/multi_llm_client.py),
with proofs checking the natural-language specification against it.

Modelling conventions:
* Python floats are modelled as exact rationals (ℚ); floating-point
  rounding is outside the model.
* The cosine similarity s = dot(q,v)/(norm(q)*norm(v)) involves square
  roots, which ℚ lacks.  Every claim about scores is an order or
  equality-to-1 statement, and x ↦ sign(x)·x² is strictly monotone on ℝ,
  so a result's `score` field stores the exact rational
  sign(s)·s² = dot·|dot| / (sumSq q · sumSq v), which represents the
  real score faithfully for every comparison and for the test s = 1.
* Stateful methods become pure functions returning the new state; a
  raised exception becomes an `Option String` (the message) or
  `Except String` result, with the pre-raise mutations of `self` kept in
  the returned state exactly as CPython keeps them.
* Python dicts keyed by int/str become association lists; insertion
  updates the first binding in place (CPython preserves key order).
-/

/-- Document with metadata for vector storage (vector_store.py, `Document`).
The open `metadata` map is opaque to the index; it is modelled as an
optional opaque string payload. -/
structure Document where
  id : String
  content : String
  embedding : Option (List ℚ) := none
  metadata : Option String := none
deriving Repr, DecidableEq

/-- Search result with similarity score (vector_store.py, `SearchResult`).
`score` holds sign(s)·s² for the real cosine similarity s (see module
conventions); this determines s uniquely and preserves all comparisons. -/
structure SearchResult where
  document : Document
  score : ℚ
deriving Repr, DecidableEq

/-- Dot product of two vectors, truncated to the shorter length
(`np.dot` on equal-length vectors; all uses are equal-length). -/
def dot : List ℚ → List ℚ → ℚ
  | a :: v, b :: w => a * b + dot v w
  | _, _ => 0

/-- Sum of squares of a vector: the square of `np.linalg.norm`. -/
def sumSq (v : List ℚ) : ℚ := dot v v

/-- Exact representative of the cosine similarity
`np.dot(q, v) / (np.linalg.norm(q) * np.linalg.norm(v))`:
with d = dot q v this is sign(d)·d² / (sumSq q · sumSq v)
= sign(s)·s² for the real score s. -/
def skey (q v : List ℚ) : ℚ :=
  dot q v * |dot q v| / (sumSq q * sumSq v)

/-- Descending-score comparison used to model
`results.sort(key=lambda x: x.score, reverse=True)`.  CPython's sort is
stable; `List.insertionSort` with this relation is the unique stable
descending sort, hence extensionally equal to it. -/
def scoreGe (x y : SearchResult) : Prop := y.score ≤ x.score

instance : DecidableRel scoreGe := fun x y => inferInstanceAs (Decidable (y.score ≤ x.score))

instance : IsTotal SearchResult scoreGe := ⟨fun a b => le_total b.score a.score⟩

instance : IsTrans SearchResult scoreGe := ⟨fun _ _ _ h1 h2 => le_trans h2 h1⟩

/-- Simple in-memory vector store for testing
(vector_store.py, `InMemoryVectorStore`). -/
structure InMemoryVectorStore where
  documents : List Document
deriving Repr, DecidableEq

namespace InMemoryVectorStore

/-- `InMemoryVectorStore.add_documents`: `self.documents.extend(documents)`. -/
def add_documents (st : InMemoryVectorStore) (docs : List Document) : InMemoryVectorStore :=
  ⟨st.documents ++ docs⟩

/-- One iteration of the scan loop in `InMemoryVectorStore.search`: a
document contributes a scored result iff its embedding is truthy
(`if doc.embedding:`, i.e. not `None` and not the empty list) and both
the query norm and the document norm are positive. -/
def scanItem (query_embedding : List ℚ) (doc : Document) : Option SearchResult :=
  match doc.embedding with
  | some e =>
      if e ≠ [] ∧ 0 < sumSq query_embedding ∧ 0 < sumSq e then
        some ⟨doc, skey query_embedding e⟩
      else none
  | none => none

/-- `InMemoryVectorStore.search`: brute-force cosine scan over all
documents, then a stable sort by score descending, truncated to `k`. -/
def search (st : InMemoryVectorStore) (query_embedding : List ℚ) (k : ℕ) : List SearchResult :=
  (List.insertionSort scoreGe
    (st.documents.filterMap (scanItem query_embedding))).take k

/-- `InMemoryVectorStore.delete_document`: filters out every document
whose id matches and reports whether the count shrank. -/
def delete_document (st : InMemoryVectorStore) (doc_id : String) :
    InMemoryVectorStore × Bool :=
  let kept := st.documents.filter (fun doc => doc.id ≠ doc_id)
  (⟨kept⟩, decide (kept.length < st.documents.length))

/-- `InMemoryVectorStore.get_document_count`. -/
def get_document_count (st : InMemoryVectorStore) : ℕ := st.documents.length

end InMemoryVectorStore

/-- Python-dict update on a string-keyed association list: replace the
first binding of the key in place, else append (CPython dict semantics,
key order preserved). -/
def updateAssoc (m : List (String × ℕ)) (k : String) (v : ℕ) : List (String × ℕ) :=
  match m with
  | [] => [(k, v)]
  | (k0, v0) :: rest => if k0 = k then (k, v) :: rest else (k0, v0) :: updateAssoc rest k v

/-- FAISS-based vector store (vector_store.py, `FAISSVectorStore`),
modelled after `initialize()` has run, so the index object exists.
`indexDim` is the dimension `d` of the live `faiss.IndexFlatIP` object
(set from `self.dimension` at initialize, or from the index file on
load); `dimension` is the Python attribute `self.dimension`.  `vectors`
holds the index rows; the code stores each row normalized, which only
rescales it, and `search` here computes the cosine directly from the raw
row, so rows are kept unnormalized. -/
structure FAISSVectorStore where
  dimension : ℕ
  indexDim : ℕ
  vectors : List (List ℚ)
  documents : List (ℕ × Document)
  id_mapping : List (String × ℕ)
  next_id : ℕ
deriving Repr, DecidableEq

namespace FAISSVectorStore

/-- The per-document loop of `FAISSVectorStore.add_documents`: for each
document in order, raise if it has no embedding, else collect its
(normalized) embedding row and mutate `self.documents`,
`self.id_mapping` and `self.next_id`.  These mutations of `self` are
kept on failure, exactly as in CPython. -/
def addLoop (st : FAISSVectorStore) (docs : List Document) (acc : List (List ℚ)) :
    FAISSVectorStore × Except String (List (List ℚ)) :=
  match docs with
  | [] => (st, .ok acc)
  | doc :: rest =>
    match doc.embedding with
    | none => (st, .error ("Document " ++ doc.id ++ " has no embedding"))
    | some e =>
      addLoop
        { st with
          documents := st.documents ++ [(st.next_id, doc)]
          id_mapping := updateAssoc st.id_mapping doc.id st.next_id
          next_id := st.next_id + 1 }
        rest (acc ++ [e])

/-- `np.vstack(embeddings)` succeeds iff the list is non-empty and all
rows have equal length; on an empty or ragged input it raises. -/
def vstackOk (rows : List (List ℚ)) : Bool :=
  match rows with
  | [] => false
  | r :: rest => rest.all (fun s => s.length = r.length)

/-- `FAISSVectorStore.add_documents`.  Any exception inside the `try`
block (missing embedding, ragged `np.vstack`, or the faiss dimension
assertion in `index.add`) is caught and re-raised as a
`VectorDatabaseError` whose message is returned here; the mutations made
before the raise persist in the returned state.  The `_save_index`
call on success is modelled separately by the pure `save_index`
(persistence failure is outside this model). -/
def add_documents (st : FAISSVectorStore) (docs : List Document) :
    FAISSVectorStore × Option String :=
  match addLoop st docs [] with
  | (st1, .error e) => (st1, some ("Failed to add documents: " ++ e))
  | (st1, .ok rows) =>
    if vstackOk rows then
      if (rows.headD []).length = st.indexDim then
        ({ st1 with vectors := st1.vectors ++ rows }, none)
      else
        (st1, some "Failed to add documents: faiss add dimension assertion failed")
    else
      (st1, some "Failed to add documents: np.vstack shape mismatch")

/-- `FAISSVectorStore.search`: faiss `IndexFlatIP.search` over the
normalized rows returns the top `min(k, ntotal)` slots by inner product
(equal to the cosine of the raw rows) in descending order; each
surviving slot is mapped through `self.documents`. -/
def search (st : FAISSVectorStore) (query_embedding : List ℚ) (k : ℕ) : List SearchResult :=
  let scored := (List.range st.vectors.length).filterMap (fun i =>
    (st.vectors.get? i).map (fun v => (i, skey query_embedding v)))
  let sorted := List.insertionSort (fun a b : ℕ × ℚ => b.2 ≤ a.2) scored
  (sorted.take (min k st.vectors.length)).filterMap (fun p =>
    (st.documents.lookup p.1).map (fun doc => ⟨doc, p.2⟩))

/-- `FAISSVectorStore.delete_document`: deletion is not supported; the
method only logs a warning and returns False, touching nothing. -/
def delete_document (st : FAISSVectorStore) (doc_id : String) :
    FAISSVectorStore × Bool :=
  (st, false)

/-- `FAISSVectorStore.get_document_count`: `self.index.ntotal`
(the store is modelled post-initialize, so the index exists). -/
def get_document_count (st : FAISSVectorStore) : ℕ := st.vectors.length

/-- Contents of the file written by `faiss.write_index`
(the index rows plus the index's own dimension). -/
structure IndexFileData where
  dim : ℕ
  rows : List (List ℚ)
deriving Repr, DecidableEq

/-- Contents of the metadata side-file `{index_path}.metadata.json`.
The JSON round trip `str(k)`/`int(k)` on slot keys is the identity on
naturals and is elided. -/
structure MetadataFile where
  documents : List (ℕ × Document)
  id_mapping : List (String × ℕ)
  next_id : ℕ
  dimension : ℕ
deriving Repr, DecidableEq

/-- `FAISSVectorStore._save_index`: write the faiss index file and the
metadata side-file from the current state. -/
def save_index (st : FAISSVectorStore) : IndexFileData × MetadataFile :=
  (⟨st.indexDim, st.vectors⟩, ⟨st.documents, st.id_mapping, st.next_id, st.dimension⟩)

/-- `FAISSVectorStore._load_index`: `faiss.read_index` on a missing
index file raises (caught and re-raised as a load failure, state
untouched); then the metadata side-file is restored only when it
exists — `if os.path.exists(...)` — and its absence is silently
tolerated, keeping the prior in-memory documents, id mapping, counter
and dimension. -/
def load_index (st : FAISSVectorStore) (idx : Option IndexFileData)
    (md : Option MetadataFile) : FAISSVectorStore × Option String :=
  match idx with
  | none => (st, some "Failed to load index: index file could not be read")
  | some i =>
    let st1 := { st with vectors := i.rows, indexDim := i.dim }
    match md with
    | some m =>
        ({ st1 with
            documents := m.documents
            id_mapping := m.id_mapping
            next_id := m.next_id
            dimension := m.dimension }, none)
    | none => (st1, none)

end FAISSVectorStore

/-- Standardized AI response format (multi_llm_client.py, `AIResponse`). -/
structure AIResponse where
  content : String
  provider : String
  model : String
  tokens_used : Option ℕ := none
  finish_reason : Option String := none
deriving Repr, DecidableEq

/-- The slice of `settings` read by `MultiLLMClient`.  The client reads
`settings.enable_ai_fallback`; the modelled field uses that name. -/
structure Settings where
  primary_ai_provider : String
  fallback_ai_provider : String
  enable_ai_fallback : Bool
  openai_api_key : Option String
  gemini_api_key : Option String
  openai_model : String
  gemini_model : String
deriving Repr, DecidableEq

/-- Outcome of the external network calls, an input to the model: what
`client.chat.completions.create` (content, total_tokens, finish_reason)
and `model.generate_content` (text) would produce or raise for this
request. -/
structure ApiOutcome where
  openai_call : Except String (String × Option ℕ × Option String)
  gemini_call : Except String String
deriving Repr

/-- Python truthiness of an optional string setting
(`if not settings.x_api_key`): `None` and the empty string are falsy. -/
def keyPresent (k : Option String) : Bool :=
  match k with
  | none => false
  | some s => s ≠ ""

/-- Python `a or b or c` over an optional string and two strings
(`model = model or settings.openai_model or "gpt-3.5-turbo"`). -/
def pyOrStr (a : Option String) (b c : String) : String :=
  match a with
  | some s => if s = "" then (if b = "" then c else b) else s
  | none => if b = "" then c else b

namespace MultiLLMClient

/-- `MultiLLMClient._generate_openai`. -/
def generate_openai (s : Settings) (api : ApiOutcome) (prompt : String)
    (max_tokens : ℕ) (temperature : ℚ) (model : Option String)
    (system_prompt : Option String) : Except String AIResponse :=
  if keyPresent s.openai_api_key = false then
    .error "OpenAI API key not configured"
  else
    let m := pyOrStr model s.openai_model "gpt-3.5-turbo"
    match api.openai_call with
    | .ok (content, toks, fin) => .ok ⟨content, "openai", m, toks, fin⟩
    | .error e => .error ("OpenAI error: " ++ e)

/-- `MultiLLMClient._generate_gemini`: Gemini reports no token usage
(`tokens_used=None`) and no finish reason. -/
def generate_gemini (s : Settings) (api : ApiOutcome) (prompt : String)
    (max_tokens : ℕ) (temperature : ℚ) (model : Option String)
    (system_prompt : Option String) : Except String AIResponse :=
  if keyPresent s.gemini_api_key = false then
    .error "Gemini API key not configured"
  else
    let m := pyOrStr model s.gemini_model "gemini-1.5-flash"
    match api.gemini_call with
    | .ok content => .ok ⟨content, "gemini", m, none, none⟩
    | .error e => .error ("Gemini error: " ++ e)

/-- `MultiLLMClient._generate_with_provider`: string-keyed dispatch. -/
def generate_with_provider (s : Settings) (api : ApiOutcome) (provider : String)
    (prompt : String) (max_tokens : ℕ) (temperature : ℚ) (model : Option String)
    (system_prompt : Option String) : Except String AIResponse :=
  if provider = "openai" then
    generate_openai s api prompt max_tokens temperature model system_prompt
  else if provider = "gemini" then
    generate_gemini s api prompt max_tokens temperature model system_prompt
  else
    .error ("Unsupported provider: " ++ provider)

/-- `MultiLLMClient.generate_text`.  The second component records, in
order, the providers whose `_generate_with_provider` call was made
(instrumentation for counting invocations).  Note the request carries
no provider field: the target of the first attempt is always
`self.primary_provider`. -/
def generate_text (s : Settings) (api : ApiOutcome) (prompt : String)
    (max_tokens : ℕ) (temperature : ℚ) (model : Option String)
    (system_prompt : Option String) : Except String AIResponse × List String :=
  match generate_with_provider s api s.primary_ai_provider prompt max_tokens
      temperature model system_prompt with
  | .ok r => (.ok r, [s.primary_ai_provider])
  | .error e =>
    if s.enable_ai_fallback = true ∧ s.fallback_ai_provider ≠ s.primary_ai_provider then
      match generate_with_provider s api s.fallback_ai_provider prompt max_tokens
          temperature model system_prompt with
      | .ok r => (.ok r, [s.primary_ai_provider, s.fallback_ai_provider])
      | .error _ =>
          (.error "Both primary and fallback providers failed",
           [s.primary_ai_provider, s.fallback_ai_provider])
    else
      (.error ("Primary provider failed: " ++ e), [s.primary_ai_provider])

end MultiLLMClient

namespace MultiLLMClient

/-- A successful dispatch stamps the response with the provider that
served it: the openai branch writes `provider="openai"`, the gemini
branch `provider="gemini"`, and any other name is rejected. -/
lemma gwp_ok_provider (s : Settings) (api : ApiOutcome) (pr prompt : String)
    (mt : ℕ) (temp : ℚ) (mdl sys : Option String) (r : AIResponse)
    (h : generate_with_provider s api pr prompt mt temp mdl sys = .ok r) :
    r.provider = pr := by
  unfold generate_with_provider at h
  by_cases h1 : pr = "openai"
  · subst h1
    simp only [if_pos rfl] at h
    unfold generate_openai at h
    rcases hk : keyPresent s.openai_api_key with _ | _ <;> rw [hk] at h
    · simp at h
    · rcases ho : api.openai_call with e | ⟨c, t, f⟩ <;> simp [ho] at h
      rw [← h]
  · rw [if_neg h1] at h
    by_cases h2 : pr = "gemini"
    · subst h2
      simp only [if_pos rfl] at h
      unfold generate_gemini at h
      rcases hk : keyPresent s.gemini_api_key with _ | _ <;> rw [hk] at h
      · simp at h
      · rcases hg : api.gemini_call with e | c <;> simp [hg] at h
        rw [← h]
    · rw [if_neg h2] at h
      simp at h

/-- The outcome kind (success vs failure) of one provider dispatch
depends only on the settings, the provider and the external call
outcome, never on the request fields. -/
lemma gwp_kind_independent (s : Settings) (api : ApiOutcome) (pr : String)
    (p1 p2 : String) (mt1 mt2 : ℕ) (t1 t2 : ℚ) (m1 m2 sp1 sp2 : Option String) :
    (∃ r1 r2, generate_with_provider s api pr p1 mt1 t1 m1 sp1 = .ok r1 ∧
              generate_with_provider s api pr p2 mt2 t2 m2 sp2 = .ok r2) ∨
    (∃ e1 e2, generate_with_provider s api pr p1 mt1 t1 m1 sp1 = .error e1 ∧
              generate_with_provider s api pr p2 mt2 t2 m2 sp2 = .error e2) := by
  unfold generate_with_provider generate_openai generate_gemini
  by_cases h1 : pr = "openai"
  · simp only [h1, if_pos rfl]
    rcases hk : keyPresent s.openai_api_key with _ | _
    · exact .inr ⟨_, _, rfl, rfl⟩
    · rcases ho : api.openai_call with e | ⟨c, t, f⟩
      · exact .inr ⟨_, _, rfl, rfl⟩
      · exact .inl ⟨_, _, rfl, rfl⟩
  · simp only [if_neg h1]
    by_cases h2 : pr = "gemini"
    · simp only [h2, if_pos rfl]
      rcases hk : keyPresent s.gemini_api_key with _ | _
      · exact .inr ⟨_, _, rfl, rfl⟩
      · rcases hg : api.gemini_call with e | c
        · exact .inr ⟨_, _, rfl, rfl⟩
        · exact .inl ⟨_, _, rfl, rfl⟩
    · simp only [if_neg h2]
      exact .inr ⟨_, _, rfl, rfl⟩

end MultiLLMClient

/-- Fixture: both providers configured with keys, openai primary,
gemini fallback. -/
def sBoth : Settings :=
  ⟨"openai", "gemini", true, some "sk", some "gk", "gpt-4-turbo-preview", "gemini-2.0-flash"⟩

/-- Fixture: both external calls fail with distinct messages. -/
def apiBothFail : ApiOutcome := ⟨.error "boom-openai-msg", .error "boom-gemini-msg"⟩

/-- C3 (counterexample): with primary openai failing with message
boom-openai-msg and fallback gemini failing with boom-gemini-msg,
`generate_text` raises the fixed message
"Both primary and fallback providers failed", which names neither
provider and carries neither underlying failure message (splitting the
message on each name yields a single fragment, i.e. no occurrence). -/
theorem claim_C3_counterexample :
    (MultiLLMClient.generate_text sBoth apiBothFail "p" 1000 (7/10) none none).1
        = .error "Both primary and fallback providers failed"
    ∧ ¬ ("openai".toList <:+: ("Both primary and fallback providers failed").toList)
    ∧ ¬ ("gemini".toList <:+: ("Both primary and fallback providers failed").toList)
    ∧ ¬ ("boom".toList <:+: ("Both primary and fallback providers failed").toList) :=
  ⟨rfl, by decide, by decide, by decide⟩

/-- C3 (amended): when the primary provider's call fails, `generate_text`
always raises and never returns a response: if the fallback is eligible
(enabled and distinct) and also fails, it raises a single error with the
fixed message "Both primary and fallback providers failed" — naming
neither provider and carrying neither underlying message — and if the
fallback is ineligible it raises "Primary provider failed: " followed by
the primary's message. -/
theorem claim_C3_aggregate_error (s : Settings) (api : ApiOutcome)
    (prompt : String) (mt : ℕ) (temp : ℚ) (mdl sys : Option String) (e : String)
    (hp : MultiLLMClient.generate_with_provider s api s.primary_ai_provider
            prompt mt temp mdl sys = .error e) :
    ((s.enable_ai_fallback = true ∧ s.fallback_ai_provider ≠ s.primary_ai_provider) →
      ∀ e2, MultiLLMClient.generate_with_provider s api s.fallback_ai_provider
              prompt mt temp mdl sys = .error e2 →
        MultiLLMClient.generate_text s api prompt mt temp mdl sys
          = (.error "Both primary and fallback providers failed",
             [s.primary_ai_provider, s.fallback_ai_provider]))
    ∧ (¬ (s.enable_ai_fallback = true ∧ s.fallback_ai_provider ≠ s.primary_ai_provider) →
        MultiLLMClient.generate_text s api prompt mt temp mdl sys
          = (.error ("Primary provider failed: " ++ e), [s.primary_ai_provider])) := by
  constructor
  · intro hel e2 hf
    simp only [MultiLLMClient.generate_text, hp, if_pos hel, hf]
  · intro hel
    simp only [MultiLLMClient.generate_text, hp, if_neg hel]

/-- C3 (witness): the amended theorem applied to the concrete
both-failing fixture. -/
theorem claim_C3_aggregate_error_witness :
    MultiLLMClient.generate_text sBoth apiBothFail "p" 1000 (7/10) none none
      = (.error "Both primary and fallback providers failed", ["openai", "gemini"]) :=
  (claim_C3_aggregate_error sBoth apiBothFail "p" 1000 (7/10) none none
      "OpenAI error: boom-openai-msg" rfl).1 ⟨rfl, by decide⟩
    "Gemini error: boom-gemini-msg" rfl

/-- C4: if the primary's call fails while fallback is enabled and the
configured fallback differs from the provider just tried, and the
fallback's call succeeds with response r, then `generate_text` performs
exactly the two dispatches primary-then-fallback (so the fallback is
invoked exactly once) and returns r, whose provider field names the
provider that actually served the call — the fallback. -/
theorem claim_C4_fallback_served (s : Settings) (api : ApiOutcome)
    (prompt : String) (mt : ℕ) (temp : ℚ) (mdl sys : Option String)
    (e : String) (r : AIResponse)
    (hen : s.enable_ai_fallback = true)
    (hne : s.fallback_ai_provider ≠ s.primary_ai_provider)
    (hp : MultiLLMClient.generate_with_provider s api s.primary_ai_provider
            prompt mt temp mdl sys = .error e)
    (hf : MultiLLMClient.generate_with_provider s api s.fallback_ai_provider
            prompt mt temp mdl sys = .ok r) :
    MultiLLMClient.generate_text s api prompt mt temp mdl sys
        = (.ok r, [s.primary_ai_provider, s.fallback_ai_provider])
    ∧ r.provider = s.fallback_ai_provider
    ∧ [s.primary_ai_provider, s.fallback_ai_provider].count s.fallback_ai_provider = 1 := by
  refine ⟨?_, ?_, ?_⟩
  · simp only [MultiLLMClient.generate_text, hp, if_pos (And.intro hen hne), hf]
  · exact MultiLLMClient.gwp_ok_provider s api _ prompt mt temp mdl sys r hf
  · simp [List.count_cons, hne]

/-- Fixture: openai primary fails at the network, gemini fallback
succeeds. -/
def apiPrimaryFails : ApiOutcome := ⟨.error "rate limited", .ok "hello"⟩

/-- C4 (witness): concrete primary-fails fixture; the call is served by
gemini and the response says so. -/
theorem claim_C4_fallback_served_witness :
    MultiLLMClient.generate_text sBoth apiPrimaryFails "p" 1000 (7/10) none none
        = (.ok ⟨"hello", "gemini", "gemini-2.0-flash", none, none⟩, ["openai", "gemini"])
    ∧ (⟨"hello", "gemini", "gemini-2.0-flash", none, none⟩ : AIResponse).provider = "gemini" :=
  ⟨(claim_C4_fallback_served sBoth apiPrimaryFails "p" 1000 (7/10) none none
      "OpenAI error: rate limited" ⟨"hello", "gemini", "gemini-2.0-flash", none, none⟩
      rfl (by decide) rfl rfl).1,
   (claim_C4_fallback_served sBoth apiPrimaryFails "p" 1000 (7/10) none none
      "OpenAI error: rate limited" ⟨"hello", "gemini", "gemini-2.0-flash", none, none⟩
      rfl (by decide) rfl rfl).2.1⟩

/-- Fixture: gemini is both primary and fallback; both keys present and
both external calls would succeed. -/
def sGeminiPrimary : Settings :=
  ⟨"gemini", "gemini", true, some "sk", some "gk", "gpt-4-turbo-preview", "gemini-2.0-flash"⟩

/-- Fixture: both external calls succeed, with distinguishable
contents. -/
def apiBothOk : ApiOutcome := ⟨.ok ("from-openai", some 5, some "stop"), .ok "from-gemini"⟩

/-- C5 (counterexample): the request shape of `generate_text` carries no
provider override — its only overrides are the optional model string and
system prompt.  Supplying the request-level override `model="gpt-4"`
(an OpenAI model name) with openai configured and succeeding still
dispatches to the configured primary gemini only: the response is
gemini's, so no per-request provider override is consulted. -/
theorem claim_C5_counterexample :
    MultiLLMClient.generate_text sGeminiPrimary apiBothOk "p" 1000 (7/10)
        (some "gpt-4") none
      = (.ok ⟨"from-gemini", "gemini", "gpt-4", none, none⟩, ["gemini"]) :=
  rfl

/-- C5 (amended): `generate_text` always targets the configured primary
provider first, and which providers get invoked is independent of every
request field (prompt, max_tokens, temperature, model override, system
prompt) — the request carries no provider override; provider selection
exists only on the internal `_generate_with_provider` helper. -/
theorem claim_C5_primary_targeting (s : Settings) (api : ApiOutcome)
    (p1 p2 : String) (mt1 mt2 : ℕ) (t1 t2 : ℚ) (m1 m2 sp1 sp2 : Option String) :
    (MultiLLMClient.generate_text s api p1 mt1 t1 m1 sp1).2.head?
        = some s.primary_ai_provider
    ∧ (MultiLLMClient.generate_text s api p1 mt1 t1 m1 sp1).2
        = (MultiLLMClient.generate_text s api p2 mt2 t2 m2 sp2).2 := by
  have hprim := MultiLLMClient.gwp_kind_independent s api s.primary_ai_provider
    p1 p2 mt1 mt2 t1 t2 m1 m2 sp1 sp2
  have hfall := MultiLLMClient.gwp_kind_independent s api s.fallback_ai_provider
    p1 p2 mt1 mt2 t1 t2 m1 m2 sp1 sp2
  rcases hprim with ⟨r1, r2, h1, h2⟩ | ⟨e1, e2, h1, h2⟩
  · simp only [MultiLLMClient.generate_text, h1, h2]
    exact ⟨by simp, by simp⟩
  · by_cases hel : s.enable_ai_fallback = true ∧ s.fallback_ai_provider ≠ s.primary_ai_provider
    · rcases hfall with ⟨q1, q2, g1, g2⟩ | ⟨f1, f2, g1, g2⟩
      · simp only [MultiLLMClient.generate_text, h1, h2, if_pos hel, g1, g2]
        exact ⟨by simp, by simp⟩
      · simp only [MultiLLMClient.generate_text, h1, h2, if_pos hel, g1, g2]
        exact ⟨by simp, by simp⟩
    · simp only [MultiLLMClient.generate_text, h1, h2, if_neg hel]
      exact ⟨by simp, by simp⟩

/-- Fixture: an in-memory store holding one document with id "a". -/
def memA : InMemoryVectorStore := ⟨[⟨"a", "ca", some [1], none⟩]⟩

/-- C9 (counterexample): deleting "a" from the in-memory store returns
true and removes the document — contradicting the claim that delete
returns false and changes nothing in both store variants. -/
theorem claim_C9_counterexample :
    (memA.delete_document "a").2 = true
    ∧ (memA.delete_document "a").1.documents = [] :=
  ⟨rfl, rfl⟩

/-- C9 (amended): the two variants have different delete contracts.
The FAISS-backed store's delete always returns false and leaves the
whole state (hence the stored document set and all index state)
unchanged; the in-memory store's delete removes every document whose id
matches, returns true exactly when some document had the id, and never
grows the store. -/
theorem claim_C9_delete_contract :
    (∀ (st : FAISSVectorStore) (i : String),
        st.delete_document i = (st, false))
    ∧ (∀ (st : InMemoryVectorStore) (i : String),
        ((st.delete_document i).1.documents.all (fun d => d.id != i)) = true
        ∧ (st.delete_document i).2 = st.documents.any (fun d => d.id == i)
        ∧ (st.delete_document i).1.documents.length ≤ st.documents.length) := by
  refine ⟨fun st i => rfl, fun st i => ⟨?_, ?_, ?_⟩⟩
  · simp only [InMemoryVectorStore.delete_document, List.all_eq_true]
    intro d hd
    have := List.of_mem_filter hd
    simpa [bne] using this
  · simp only [InMemoryVectorStore.delete_document]
    have hle := List.length_filter_le
      (fun doc => decide (doc.id ≠ i)) st.documents
    by_cases hany : st.documents.any (fun d => d.id == i) = true
    · rw [hany]
      rcases List.any_eq_true.mp hany with ⟨d, hd, hdi⟩
      have hlt : (st.documents.filter (fun doc => decide (doc.id ≠ i))).length
          < st.documents.length := by
        rcases Nat.lt_or_ge (st.documents.filter
            (fun doc => decide (doc.id ≠ i))).length st.documents.length with h | h
        · exact h
        · exfalso
          have heq : (st.documents.filter (fun doc => decide (doc.id ≠ i))).length
              = st.documents.length := Nat.le_antisymm hle h
          have := List.filter_length_eq_length.mp heq d hd
          simp [beq_iff_eq] at hdi this
          exact this hdi
      exact decide_eq_true hlt
    · have hall : ∀ d ∈ st.documents, d.id ≠ i := by
        intro d hd
        by_contra hdi
        exact hany (List.any_eq_true.mpr ⟨d, hd, by simp [beq_iff_eq]; simpa using hdi⟩)
      have heq : (st.documents.filter (fun doc => decide (doc.id ≠ i))).length
          = st.documents.length :=
        List.filter_length_eq_length.mpr (by intro a ha; simpa using hall a ha)
      rw [Bool.not_eq_true] at hany
      rw [hany]
      apply decide_eq_false
      rw [heq]
      exact Nat.lt_irrefl _
  · exact List.length_filter_le _ _

/-- Fixture: an initialized, empty FAISS store of dimension 3. -/
def faiss3 : FAISSVectorStore := ⟨3, 3, [], [], [], 0⟩

/-- Fixture: an index file holding one dimension-3 row. -/
def idxFile3 : FAISSVectorStore.IndexFileData := ⟨3, [[1, 0, 0]]⟩

/-- C2 (counterexample): loading with the vector-data file present but
the metadata side-file absent is not a failure — `_load_index` silently
proceeds, installing the index rows and keeping the prior in-memory
metadata, contradicting the claim that this mismatch is a hard fatal
load error. -/
theorem claim_C2_counterexample :
    (FAISSVectorStore.load_index faiss3 (some idxFile3) none).2 = none
    ∧ (FAISSVectorStore.load_index faiss3 (some idxFile3) none).1.vectors = [[1, 0, 0]] :=
  ⟨rfl, rfl⟩

/-- C2 (amended): `_load_index` treats a missing or unreadable
vector-data file as a hard load failure leaving the state untouched, and
when the metadata side-file is present it is restored wholesale together
with the index; but an absent metadata side-file is silently tolerated:
the load succeeds with the loaded index rows while keeping the prior
in-memory documents, id mapping, next-slot counter and dimension. -/
theorem claim_C2_load_behavior :
    (∀ (st : FAISSVectorStore) (md : Option FAISSVectorStore.MetadataFile),
        FAISSVectorStore.load_index st none md
          = (st, some "Failed to load index: index file could not be read"))
    ∧ (∀ (st : FAISSVectorStore) (i : FAISSVectorStore.IndexFileData)
          (m : FAISSVectorStore.MetadataFile),
        FAISSVectorStore.load_index st (some i) (some m)
          = (⟨m.dimension, i.dim, i.rows, m.documents, m.id_mapping, m.next_id⟩, none))
    ∧ (∀ (st : FAISSVectorStore) (i : FAISSVectorStore.IndexFileData),
        (FAISSVectorStore.load_index st (some i) none).2 = none
        ∧ (FAISSVectorStore.load_index st (some i) none).1
            = ⟨st.dimension, i.dim, i.rows, st.documents, st.id_mapping, st.next_id⟩) :=
  ⟨fun st md => rfl, fun st i m => rfl, fun st i => ⟨rfl, rfl⟩⟩

/-- C8: persisting a store's index and metadata with `_save_index` and
reloading the two artifacts with `_load_index` — into any store object —
reconstructs exactly the original store state without error, so `search`
returns identical result ordering and identical scores for every query
embedding and every k. -/
theorem claim_C8_roundtrip (st st2 : FAISSVectorStore) (q : List ℚ) (k : ℕ) :
    FAISSVectorStore.load_index st2 (some (st.save_index).1) (some (st.save_index).2)
        = (st, none)
    ∧ (FAISSVectorStore.load_index st2 (some (st.save_index).1)
          (some (st.save_index).2)).1.search q k = st.search q k :=
  ⟨rfl, rfl⟩

/-- Slot assignment performed by the add loop: documents receive the
consecutive internal ids n, n+1, ... in batch order. -/
def slotted (n : ℕ) : List Document → List (ℕ × Document)
  | [] => []
  | d :: r => (n, d) :: slotted (n + 1) r

/-- Id-mapping rewriting performed by the add loop: each document's
external id is pointed (dict-update) at its newly assigned slot. -/
def remapped (m : List (String × ℕ)) (n : ℕ) : List Document → List (String × ℕ)
  | [] => m
  | d :: r => remapped (updateAssoc m d.id n) (n + 1) r

/-- Closed form of `FAISSVectorStore.addLoop` when every document in the
batch carries an embedding: the loop completes, collecting all
embeddings in order and applying the slot/mapping/counter mutations. -/
lemma addLoop_ok_spec : ∀ (docs : List Document) (st : FAISSVectorStore)
    (acc : List (List ℚ)), (∀ d ∈ docs, d.embedding.isSome) →
    FAISSVectorStore.addLoop st docs acc
      = (⟨st.dimension, st.indexDim, st.vectors,
          st.documents ++ slotted st.next_id docs,
          remapped st.id_mapping st.next_id docs,
          st.next_id + docs.length⟩,
         .ok (acc ++ docs.filterMap Document.embedding))
  | [], st, acc, _ => by
      simp [FAISSVectorStore.addLoop, slotted, remapped]
  | d :: r, st, acc, h => by
      rcases hd : d.embedding with _ | e
      · exact absurd (h d (List.mem_cons_self d r)) (by simp [hd])
      · have hr : ∀ d' ∈ r, d'.embedding.isSome :=
          fun d' hd' => h d' (List.mem_cons_of_mem d hd')
        simp only [FAISSVectorStore.addLoop, hd]
        rw [addLoop_ok_spec r _ (acc ++ [e]) hr]
        simp only [Prod.mk.injEq, FAISSVectorStore.mk.injEq]
        refine ⟨⟨trivial, trivial, trivial, ?_, ?_, ?_⟩, ?_⟩
        · simp [slotted, List.append_assoc]
        · simp [remapped]
        · simp [slotted]
          omega
        · simp [List.filterMap_cons, hd, List.append_assoc]

/-- The number of slots assigned equals the batch length. -/
lemma slotted_length (docs : List Document) : ∀ n, (slotted n docs).length = docs.length := by
  induction docs with
  | nil => intro n; rfl
  | cons d r ih => intro n; simp [slotted, ih]

/-- When every document has an embedding, the collected rows are exactly
one per document. -/
lemma filterMap_embedding_length (docs : List Document)
    (h : ∀ d ∈ docs, d.embedding.isSome) :
    (docs.filterMap Document.embedding).length = docs.length := by
  induction docs with
  | nil => rfl
  | cons d r ih =>
      rcases hd : d.embedding with _ | e
      · exact absurd (h d (List.mem_cons_self d r)) (by simp [hd])
      · simp [List.filterMap_cons, hd,
          ih (fun d' hd' => h d' (List.mem_cons_of_mem d hd'))]

/-- Rows collected from a batch whose embeddings all have length L all
have length L. -/
lemma rows_length_of_hemb (docs : List Document) (L : ℕ)
    (h : ∀ d ∈ docs, ∃ e, d.embedding = some e ∧ e.length = L) :
    ∀ r ∈ docs.filterMap Document.embedding, r.length = L := by
  intro r hr
  rcases List.mem_filterMap.mp hr with ⟨d, hd, hde⟩
  rcases h d hd with ⟨e, he, hlen⟩
  rw [he] at hde
  cases hde
  exact hlen

/-- Closed form of `FAISSVectorStore.add_documents` on a successful
batch: non-empty, every document embedded with the index's dimension.
The rows are appended to the index, the documents get consecutive fresh
slots, the id mapping is re-pointed, and no error is raised. -/
lemma add_documents_ok (st : FAISSVectorStore) (docs : List Document)
    (hne : docs ≠ [])
    (hemb : ∀ d ∈ docs, ∃ e, d.embedding = some e ∧ e.length = st.indexDim) :
    st.add_documents docs
      = (⟨st.dimension, st.indexDim, st.vectors ++ docs.filterMap Document.embedding,
          st.documents ++ slotted st.next_id docs,
          remapped st.id_mapping st.next_id docs,
          st.next_id + docs.length⟩, none) := by
  have hsome : ∀ d ∈ docs, d.embedding.isSome := by
    intro d hd
    rcases hemb d hd with ⟨e, he, _⟩
    simp [he]
  have hrows := rows_length_of_hemb docs st.indexDim hemb
  have hlen := filterMap_embedding_length docs hsome
  unfold FAISSVectorStore.add_documents
  rw [addLoop_ok_spec docs st [] hsome]
  simp only [List.nil_append]
  rcases hr : docs.filterMap Document.embedding with _ | ⟨r0, rest⟩
  · exfalso
    rw [hr] at hlen
    exact hne (List.length_eq_zero.mp hlen.symm)
  · have hr0 : r0.length = st.indexDim := hrows r0 (hr ▸ List.mem_cons_self r0 rest)
    have hvs : FAISSVectorStore.vstackOk (r0 :: rest) = true := by
      simp only [FAISSVectorStore.vstackOk, List.all_eq_true]
      intro s hs
      have : s.length = st.indexDim := hrows s (hr ▸ List.mem_cons_of_mem r0 hs)
      simp [this, hr0]
    simp [hvs, hr0]

/-- Closed form of `FAISSVectorStore.add_documents` on a batch whose
documents are all embedded but where some embedding's length differs
from the index dimension: an error is raised, the index rows are
untouched, yet the loop's mutations of documents map, id mapping and
counter persist. -/
lemma add_documents_mismatch (st : FAISSVectorStore) (docs : List Document)
    (hsome : ∀ d ∈ docs, d.embedding.isSome)
    (hmis : ∃ d ∈ docs, ∃ e, d.embedding = some e ∧ e.length ≠ st.indexDim) :
    ∃ msg, st.add_documents docs
      = (⟨st.dimension, st.indexDim, st.vectors,
          st.documents ++ slotted st.next_id docs,
          remapped st.id_mapping st.next_id docs,
          st.next_id + docs.length⟩, some msg) := by
  rcases hmis with ⟨d, hd, e, he, hlen⟩
  have hemem : e ∈ docs.filterMap Document.embedding :=
    List.mem_filterMap.mpr ⟨d, hd, by rw [he]⟩
  unfold FAISSVectorStore.add_documents
  rw [addLoop_ok_spec docs st [] hsome]
  simp only [List.nil_append]
  rcases hr : docs.filterMap Document.embedding with _ | ⟨r0, rest⟩
  · rw [hr] at hemem
    exact absurd hemem (List.not_mem_nil e)
  · rw [hr] at hemem
    by_cases hvs : FAISSVectorStore.vstackOk (r0 :: rest) = true
    · have hall : ∀ s ∈ (r0 :: rest), s.length = r0.length := by
        intro s hs
        rcases List.mem_cons.mp hs with h | h
        · rw [h]
        · have := (List.all_eq_true.mp hvs) s h
          simpa using this
      have hr0 : r0.length ≠ st.indexDim := by
        have := hall e hemem
        rw [← this]
        exact hlen
      simp [hvs, hr0]
    · rw [Bool.not_eq_true] at hvs
      simp [hvs]

/-- Fixture: correctly-dimensioned document for the dimension-3 index. -/
def docX : Document := ⟨"x", "cx", some [1, 0, 0], none⟩

/-- Fixture: mis-dimensioned document (length 2) for the dimension-3
index. -/
def docY2 : Document := ⟨"y", "cy", some [1, 0], none⟩

/-- C1 (counterexample): adding the batch [docX, docY2] (docY2
mis-dimensioned) to the empty dimension-3 store raises, and `count()`
stays 0, but the index state is NOT left exactly as before the call:
the next-slot counter went from 0 to 2 and the documents map from empty
to two entries — the batch's metadata mutations were applied despite the
failure, so the batch is not all-or-nothing. -/
theorem claim_C1_counterexample :
    ((faiss3.add_documents [docX, docY2]).2).isSome = true
    ∧ (faiss3.add_documents [docX, docY2]).1.get_document_count = faiss3.get_document_count
    ∧ (faiss3.add_documents [docX, docY2]).1.next_id = 2
    ∧ faiss3.next_id = 0
    ∧ (faiss3.add_documents [docX, docY2]).1.documents.length = 2
    ∧ faiss3.documents.length = 0 :=
  ⟨rfl, rfl, rfl, rfl, rfl, rfl⟩

/-- C1 (amended): `add_documents` performs no dimension validation
before mutating; on a batch of embedded documents containing one whose
embedding length differs from the index dimension it raises an error and
leaves the FAISS index rows — hence `count()` — unchanged, but the
documents map, the id mapping and the next-slot counter retain the
mutations made for every document of the batch: the batch is
all-or-nothing only for the vector rows, not for the metadata. -/
theorem claim_C1_metadata_not_rolled_back (st : FAISSVectorStore)
    (docs : List Document)
    (hsome : ∀ d ∈ docs, d.embedding.isSome)
    (hmis : ∃ d ∈ docs, ∃ e, d.embedding = some e ∧ e.length ≠ st.indexDim) :
    ((st.add_documents docs).2).isSome = true
    ∧ (st.add_documents docs).1.vectors = st.vectors
    ∧ (st.add_documents docs).1.get_document_count = st.get_document_count
    ∧ (st.add_documents docs).1.next_id = st.next_id + docs.length
    ∧ (st.add_documents docs).1.documents.length
        = st.documents.length + docs.length := by
  rcases add_documents_mismatch st docs hsome hmis with ⟨msg, heq⟩
  rw [heq]
  refine ⟨rfl, rfl, rfl, rfl, ?_⟩
  simp [FAISSVectorStore.get_document_count, slotted_length]

/-- C1 (witness): the amended theorem applied to the concrete
mis-dimensioned batch over the empty dimension-3 store. -/
theorem claim_C1_metadata_not_rolled_back_witness :
    ((faiss3.add_documents [docX, docY2]).2).isSome = true
    ∧ (faiss3.add_documents [docX, docY2]).1.vectors = faiss3.vectors
    ∧ (faiss3.add_documents [docX, docY2]).1.get_document_count
        = faiss3.get_document_count
    ∧ (faiss3.add_documents [docX, docY2]).1.next_id
        = faiss3.next_id + [docX, docY2].length
    ∧ (faiss3.add_documents [docX, docY2]).1.documents.length
        = faiss3.documents.length + [docX, docY2].length :=
  claim_C1_metadata_not_rolled_back faiss3 [docX, docY2]
    (by intro d hd; fin_cases hd <;> simp [docX, docY2])
    ⟨docY2, by simp, [1, 0], rfl, by simp [faiss3]⟩

/-- A key found in the left part of an appended association list is
found in the whole. -/
lemma lookup_append_left {A B : Type} [BEq A] (l1 l2 : List (A × B)) (k : A) (v : B)
    (h : l1.lookup k = some v) : (l1 ++ l2).lookup k = some v := by
  induction l1 with
  | nil => simp [List.lookup] at h
  | cons p r ih =>
      rcases p with ⟨k0, v0⟩
      rcases hk : k == k0 with _ | _
      · simp only [List.cons_append, List.lookup, hk] at h ⊢
        exact ih h
      · simp only [List.cons_append, List.lookup, hk] at h ⊢
        exact h

/-- Looking up the updated key yields the new value. -/
lemma updateAssoc_lookup_self (m : List (String × ℕ)) (k : String) (v : ℕ) :
    (updateAssoc m k v).lookup k = some v := by
  induction m with
  | nil => simp [updateAssoc, List.lookup]
  | cons p r ih =>
      rcases p with ⟨k0, v0⟩
      by_cases hk : k0 = k
      · subst hk
        simp [updateAssoc, List.lookup]
      · have hb : (k == k0) = false := beq_eq_false_iff_ne.mpr (Ne.symm hk)
        simp only [updateAssoc, if_neg hk, List.lookup, hb]
        exact ih

/-- Updating one key leaves every other key's lookup unchanged. -/
lemma updateAssoc_lookup_ne (m : List (String × ℕ)) (k : String) (v : ℕ)
    (q : String) (h : q ≠ k) : (updateAssoc m k v).lookup q = m.lookup q := by
  induction m with
  | nil => simp [updateAssoc, List.lookup, beq_eq_false_iff_ne.mpr h]
  | cons p r ih =>
      rcases p with ⟨k0, v0⟩
      by_cases hk : k0 = k
      · subst hk
        simp [updateAssoc, List.lookup, beq_eq_false_iff_ne.mpr h]
      · simp only [updateAssoc, if_neg hk, List.lookup]
        rcases hq : q == k0 with _ | _
        · exact ih
        · rfl

/-- Ids not occurring in the batch keep their prior mapping. -/
lemma remapped_lookup_of_not_mem : ∀ (docs : List Document)
    (m : List (String × ℕ)) (n : ℕ) (i : String),
    (∀ d ∈ docs, d.id ≠ i) → (remapped m n docs).lookup i = m.lookup i
  | [], m, n, i, _ => rfl
  | d :: r, m, n, i, h => by
      have hr := remapped_lookup_of_not_mem r (updateAssoc m d.id n) (n + 1) i
        (fun d' hd' => h d' (List.mem_cons_of_mem d hd'))
      simp only [remapped]
      rw [hr]
      exact updateAssoc_lookup_ne m d.id n i
        (fun hcon => h d (List.mem_cons_self d r) hcon.symm)

/-- An id occurring in the batch is mapped, after the loop, to one of
the freshly assigned slots n, ..., n + |batch| - 1. -/
lemma remapped_lookup_of_mem : ∀ (docs : List Document)
    (m : List (String × ℕ)) (n : ℕ) (i : String),
    (∃ d ∈ docs, d.id = i) →
    ∃ s, (remapped m n docs).lookup i = some s ∧ n ≤ s ∧ s < n + docs.length
  | [], m, n, i, h => by
      rcases h with ⟨d, hd, _⟩
      exact absurd hd (List.not_mem_nil d)
  | d :: r, m, n, i, h => by
      by_cases hr : ∃ d' ∈ r, d'.id = i
      · rcases remapped_lookup_of_mem r (updateAssoc m d.id n) (n + 1) i hr with
          ⟨s, hs, h1, h2⟩
        refine ⟨s, ?_, by omega, by simp only [List.length_cons]; omega⟩
        simpa only [remapped] using hs
      · rcases h with ⟨d0, hd0, hid⟩
        have hdid : d.id = i := by
          rcases List.mem_cons.mp hd0 with hh | hh
          · rw [← hh]
            exact hid
          · exact absurd ⟨d0, hh, hid⟩ hr
        refine ⟨n, ?_, le_refl n, by simp only [List.length_cons]; omega⟩
        simp only [remapped]
        rw [remapped_lookup_of_not_mem r (updateAssoc m d.id n) (n + 1) i
          (fun d' hd' hcon => hr ⟨d', hd', hcon⟩)]
        rw [hdid]
        exact updateAssoc_lookup_self m i n

/-- C10: adding a batch that reuses an already-present external id
raises no error and `count()` grows by the full batch size; in the
FAISS-backed store the external-id-to-slot mapping is re-pointed at a
newly assigned slot (distinct from the old one) while the previously
stored document stays in its old slot, soft-orphaned; in the in-memory
store the batch is appended wholesale, so both copies of a duplicated id
remain stored. -/
theorem claim_C10_duplicate_id (st : FAISSVectorStore) (docs : List Document)
    (d0 : Document) (oldSlot : ℕ) (oldDoc : Document)
    (hne : docs ≠ [])
    (hemb : ∀ d ∈ docs, ∃ e, d.embedding = some e ∧ e.length = st.indexDim)
    (hd0 : d0 ∈ docs)
    (hmap : st.id_mapping.lookup d0.id = some oldSlot)
    (hslot : oldSlot < st.next_id)
    (hdoc : st.documents.lookup oldSlot = some oldDoc) :
    (st.add_documents docs).2 = none
    ∧ (st.add_documents docs).1.get_document_count
        = st.get_document_count + docs.length
    ∧ (st.add_documents docs).1.documents.lookup oldSlot = some oldDoc
    ∧ (∃ s, (st.add_documents docs).1.id_mapping.lookup d0.id = some s
        ∧ st.next_id ≤ s ∧ s ≠ oldSlot)
    ∧ (∀ (mst : InMemoryVectorStore) (b : List Document) (i : String),
        (mst.add_documents b).get_document_count
            = mst.get_document_count + b.length
        ∧ (mst.add_documents b).documents.countP (fun d => d.id == i)
            = mst.documents.countP (fun d => d.id == i)
              + b.countP (fun d => d.id == i)) := by
  have hsome : ∀ d ∈ docs, d.embedding.isSome := by
    intro d hd
    rcases hemb d hd with ⟨e, he, _⟩
    simp [he]
  rw [add_documents_ok st docs hne hemb]
  refine ⟨rfl, ?_, ?_, ?_, ?_⟩
  · simp [FAISSVectorStore.get_document_count,
      filterMap_embedding_length docs hsome]
  · exact lookup_append_left st.documents (slotted st.next_id docs) oldSlot oldDoc hdoc
  · rcases remapped_lookup_of_mem docs st.id_mapping st.next_id d0.id
        ⟨d0, hd0, rfl⟩ with ⟨s, hs, h1, h2⟩
    exact ⟨s, hs, h1, by omega⟩
  · intro mst b i
    constructor
    · simp [InMemoryVectorStore.add_documents, InMemoryVectorStore.get_document_count]
    · simp [InMemoryVectorStore.add_documents, List.countP_append]

/-- Fixture: the document originally stored under id "a". -/
def docA0 : Document := ⟨"a", "ca", some [1, 0, 0], none⟩

/-- Fixture: a dimension-3 FAISS store already holding docA0 in slot 0
under external id "a". -/
def faissA : FAISSVectorStore := ⟨3, 3, [[1, 0, 0]], [(0, docA0)], [("a", 0)], 1⟩

/-- Fixture: a second document reusing the external id "a". -/
def docA1 : Document := ⟨"a", "ca2", some [0, 1, 0], none⟩

/-- C10 (witness): re-adding id "a" to the concrete one-document store:
no error, count 1 → 2, slot 0 still holds the original document, and the
mapping for "a" now points at a fresh slot other than 0. -/
theorem claim_C10_duplicate_id_witness :
    (faissA.add_documents [docA1]).2 = none
    ∧ (faissA.add_documents [docA1]).1.get_document_count
        = faissA.get_document_count + [docA1].length
    ∧ (faissA.add_documents [docA1]).1.documents.lookup 0 = some docA0
    ∧ (∃ s, (faissA.add_documents [docA1]).1.id_mapping.lookup docA1.id = some s
        ∧ faissA.next_id ≤ s ∧ s ≠ 0)
    ∧ (∀ (mst : InMemoryVectorStore) (b : List Document) (i : String),
        (mst.add_documents b).get_document_count
            = mst.get_document_count + b.length
        ∧ (mst.add_documents b).documents.countP (fun d => d.id == i)
            = mst.documents.countP (fun d => d.id == i)
              + b.countP (fun d => d.id == i)) :=
  claim_C10_duplicate_id faissA [docA1] docA1 0 docA0
    (by simp)
    (by intro d hd
        rw [List.mem_singleton.mp hd]
        exact ⟨[0, 1, 0], rfl, rfl⟩)
    (List.mem_singleton.mpr rfl)
    rfl
    (by simp [faissA])
    rfl

/-- A sum of squares is nonnegative. -/
lemma sumSq_nonneg : ∀ v : List ℚ, 0 ≤ sumSq v
  | [] => le_refl 0
  | a :: v => by
      have ih := sumSq_nonneg v
      have ha : 0 ≤ a * a := mul_self_nonneg a
      simp only [sumSq, dot] at ih ⊢
      linarith

/-- Cauchy-Schwarz for the list dot product, squared form:
(dot v w)² ≤ sumSq v · sumSq w. -/
lemma dot_sq_le : ∀ v w : List ℚ, dot v w * dot v w ≤ sumSq v * sumSq w
  | [], w => by
      simp [dot, sumSq]
  | a :: v, [] => by
      simp [dot, sumSq]
  | a :: v, b :: w => by
      have ih := dot_sq_le v w
      have hA : 0 ≤ sumSq v := sumSq_nonneg v
      have hB : 0 ≤ sumSq w := sumSq_nonneg w
      simp only [sumSq, dot] at ih hA hB ⊢
      rcases eq_or_lt_of_le hB with hB0 | hBpos
      · have hd0 : dot v w * dot v w ≤ 0 := by
          rw [← hB0] at ih
          simpa using ih
        have hd : dot v w = 0 := by
          nlinarith [mul_self_nonneg (dot v w)]
        rw [← hB0, hd]
        nlinarith [mul_nonneg hA (mul_self_nonneg b)]
      · nlinarith [ih, sq_nonneg (a * dot w w - b * dot v w),
          mul_nonneg hA hBpos.le, mul_self_nonneg a, mul_self_nonneg b,
          mul_nonneg (mul_self_nonneg b) (sub_nonneg.mpr ih)]

/-- The score representative of a vector against itself is exactly 1
(the real cosine similarity of a nonzero vector with itself). -/
lemma skey_self (v : List ℚ) (hv : 0 < sumSq v) : skey v v = 1 := by
  unfold skey
  have h1 : |dot v v| = sumSq v := by
    rw [abs_of_pos]
    · rfl
    · exact hv
  rw [h1]
  show sumSq v * sumSq v / (sumSq v * sumSq v) = 1
  exact div_self (ne_of_gt (mul_pos hv hv))

/-- Every score representative is at most 1 (Cauchy-Schwarz): the real
cosine similarity never exceeds 1. -/
lemma skey_le_one (q v : List ℚ) (hq : 0 < sumSq q) (hv : 0 < sumSq v) :
    skey q v ≤ 1 := by
  unfold skey
  rw [div_le_one (mul_pos hq hv)]
  calc dot q v * |dot q v| ≤ |dot q v| * |dot q v| :=
        mul_le_mul_of_nonneg_right (le_abs_self _) (abs_nonneg _)
    _ = dot q v * dot q v := abs_mul_abs_self _
    _ ≤ sumSq q * sumSq v := dot_sq_le q v

/-- A scan hit on a document with embedding e (nonzero, nonzero query)
is that document tagged with its score representative. -/
lemma scanItem_some (q : List ℚ) (d : Document) (e : List ℚ)
    (he : d.embedding = some e) (hq : 0 < sumSq q) (hv : 0 < sumSq e) :
    InMemoryVectorStore.scanItem q d = some ⟨d, skey q e⟩ := by
  have hne : e ≠ [] := by
    intro h
    rw [h] at hv
    simp [sumSq, dot] at hv
  simp [InMemoryVectorStore.scanItem, he, hne, hq, hv]

/-- Every scan hit's score representative is at most 1. -/
lemma scanItem_score_le_one (q : List ℚ) (d : Document) (r : SearchResult)
    (h : InMemoryVectorStore.scanItem q d = some r) : r.score ≤ 1 := by
  rcases hde : d.embedding with _ | e
  · simp [InMemoryVectorStore.scanItem, hde] at h
  · by_cases hc : e ≠ [] ∧ 0 < sumSq q ∧ 0 < sumSq e
    · simp only [InMemoryVectorStore.scanItem, hde, if_pos hc,
        Option.some.injEq] at h
      rw [← h]
      exact skey_le_one q e hc.2.1 hc.2.2
    · simp [InMemoryVectorStore.scanItem, hde, hc] at h

/-- filterMap keeps everything when the function always hits. -/
lemma length_filterMap_of_isSome {A B : Type} (f : A → Option B) :
    ∀ l : List A, (∀ x ∈ l, (f x).isSome) → (l.filterMap f).length = l.length
  | [], _ => rfl
  | a :: l, h => by
      rcases hfa : f a with _ | b
      · exact absurd (h a (List.mem_cons_self a l)) (by simp [hfa])
      · simp [List.filterMap_cons, hfa,
          length_filterMap_of_isSome f l
            (fun x hx => h x (List.mem_cons_of_mem a hx))]

/-- Fixture: an in-memory store whose only document has no embedding. -/
def memNone : InMemoryVectorStore := ⟨[⟨"n", "cn", none, none⟩]⟩

/-- C6 (counterexample): a document without an embedding is counted by
`count()` but silently skipped by `search`, so with k = 5 > count() = 1
the search returns 0 results, not exactly count() = 1. -/
theorem claim_C6_counterexample :
    memNone.get_document_count = 1
    ∧ (memNone.search [1] 5).length = 0 :=
  ⟨rfl, rfl⟩

/-- C6 (amended): for every index state, query and k, `search` returns
results ordered by descending similarity score; an empty index yields []
for any k without error; the result length never exceeds
min k count(); and it equals min k count() exactly — k clamped to the
count, never padded — whenever the query has nonzero norm and every
stored document carries a nonzero-norm embedding (documents with
missing, empty or zero embeddings are silently skipped, so in their
presence fewer than count() results come back). -/
theorem claim_C6_order_and_clamp (st : InMemoryVectorStore) (q : List ℚ) (k : ℕ) :
    List.Pairwise (fun x y : SearchResult => y.score ≤ x.score) (st.search q k)
    ∧ (InMemoryVectorStore.mk []).search q k = []
    ∧ (st.search q k).length ≤ min k st.get_document_count
    ∧ (0 < sumSq q →
        (∀ d ∈ st.documents, ∃ e, d.embedding = some e ∧ 0 < sumSq e) →
        (st.search q k).length = min k st.get_document_count) := by
  refine ⟨?_, by simp [InMemoryVectorStore.search], ?_, ?_⟩
  · exact List.Pairwise.sublist (List.take_sublist k _)
      (List.sorted_insertionSort scoreGe _)
  · unfold InMemoryVectorStore.search
    rw [List.length_take, List.length_insertionSort]
    exact min_le_min (le_refl k) (List.length_filterMap_le _ _)
  · intro hq hall
    unfold InMemoryVectorStore.search
    rw [List.length_take, List.length_insertionSort]
    rw [length_filterMap_of_isSome _ st.documents ?_]
    · rfl
    · intro d hd
      rcases hall d hd with ⟨e, he, hv⟩
      rw [scanItem_some q d e he hq hv]
      rfl

/-- Fixture: the dimension-3 store documents of the spec's concrete
scenario. -/
def docA : Document := ⟨"a", "content-a", some [1, 0, 0], none⟩

/-- Fixture: second document of the concrete scenario. -/
def docB : Document := ⟨"b", "content-b", some [0, 1, 0], none⟩

/-- Fixture: the concrete scenario store, built by `add` on an empty
store. -/
def memAB : InMemoryVectorStore :=
  (InMemoryVectorStore.mk []).add_documents [docA, docB]

/-- C6 (witness): the amended theorem's clamping clause at the concrete
two-document store with k = 5: exactly min 5 2 results. -/
theorem claim_C6_order_and_clamp_witness :
    (memAB.search [1, 0, 0] 5).length = min 5 memAB.get_document_count :=
  (claim_C6_order_and_clamp memAB [1, 0, 0] 5).2.2.2
    (by norm_num [sumSq, dot])
    (by intro d hd
        fin_cases hd
        · exact ⟨[1, 0, 0], rfl, by norm_num [sumSq, dot]⟩
        · exact ⟨[0, 1, 0], rfl, by norm_num [sumSq, dot]⟩)

/-- Fixture: a correctly-dimensioned (length-3) but zero document
embedding. -/
def docZ : Document := ⟨"z", "cz", some [0, 0, 0], none⟩

/-- C7 (counterexample): the all-batches clause fails: for the
non-empty batch [docZ], whose embedding is correctly dimensioned
(length 3), adding and then searching with the identical embedding
returns no result at all — docZ is not returned top-ranked with
similarity 1. -/
theorem claim_C7_counterexample :
    docZ.embedding = some [0, 0, 0]
    ∧ ([0, 0, 0] : List ℚ).length = 3
    ∧ ((InMemoryVectorStore.mk []).add_documents [docZ]).search [0, 0, 0] 1 = [] :=
  ⟨rfl, rfl, by
    norm_num [InMemoryVectorStore.search, InMemoryVectorStore.add_documents,
      InMemoryVectorStore.scanItem, docZ, sumSq, dot]⟩

/-- C7 (amended): for every non-empty batch whose documents all carry
nonzero-norm embeddings, adding the batch to an empty store and
searching with the identical embedding of any added document d (with k
at least the batch size) returns a non-empty list whose top result has
similarity exactly 1 (in exact arithmetic), and d itself appears among
the results with similarity 1 — d is literally top-ranked up to ties at
similarity 1.  The spec's concrete dimension-3 scenario holds exactly:
search([1,0,0], 1) = [(a, 1)], and search([0.9,0.1,0], 2) returns a
before b with score(a) > score(b). -/
theorem claim_C7_self_query_top :
    (∀ (batch : List Document) (d : Document) (v : List ℚ) (k : ℕ),
      (∀ d' ∈ batch, ∃ e, d'.embedding = some e ∧ 0 < sumSq e) →
      d ∈ batch → d.embedding = some v → batch.length ≤ k →
      (∃ r0, (((InMemoryVectorStore.mk []).add_documents batch).search v k).head?
          = some r0 ∧ r0.score = 1)
      ∧ (⟨d, 1⟩ : SearchResult)
          ∈ ((InMemoryVectorStore.mk []).add_documents batch).search v k)
    ∧ memAB.search [1, 0, 0] 1 = [⟨docA, 1⟩]
    ∧ memAB.search [9/10, 1/10, 0] 2 = [⟨docA, 81/82⟩, ⟨docB, 1/82⟩]
    ∧ ((1 : ℚ)/82) < 81/82 := by
  refine ⟨?_, ?_, ?_, by norm_num⟩
  · intro batch d v k hall hd hdv hk
    have hv : 0 < sumSq v := by
      rcases hall d hd with ⟨e, he, hpos⟩
      rw [hdv] at he
      cases he
      exact hpos
    have hscan : InMemoryVectorStore.scanItem v d = some ⟨d, 1⟩ := by
      rw [scanItem_some v d v hdv hv hv, skey_self v hv]
    have hmem : (⟨d, 1⟩ : SearchResult)
        ∈ batch.filterMap (InMemoryVectorStore.scanItem v) :=
      List.mem_filterMap.mpr ⟨d, hd, hscan⟩
    have hmemS : (⟨d, 1⟩ : SearchResult)
        ∈ List.insertionSort scoreGe (batch.filterMap (InMemoryVectorStore.scanItem v)) :=
      (List.perm_insertionSort scoreGe _).mem_iff.mpr hmem
    have hlen : (List.insertionSort scoreGe
        (batch.filterMap (InMemoryVectorStore.scanItem v))).length ≤ k := by
      rw [List.length_insertionSort]
      exact le_trans (List.length_filterMap_le _ _) hk
    have hsearch : ((InMemoryVectorStore.mk []).add_documents batch).search v k
        = List.insertionSort scoreGe
            (batch.filterMap (InMemoryVectorStore.scanItem v)) := by
      unfold InMemoryVectorStore.search InMemoryVectorStore.add_documents
      simp only [List.nil_append]
      exact List.take_of_length_le hlen
    rw [hsearch]
    rcases hS : List.insertionSort scoreGe
        (batch.filterMap (InMemoryVectorStore.scanItem v)) with _ | ⟨r0, rest⟩
    · rw [hS] at hmemS
      exact absurd hmemS (List.not_mem_nil _)
    · have hsorted := List.sorted_insertionSort scoreGe
        (batch.filterMap (InMemoryVectorStore.scanItem v))
      rw [hS] at hsorted hmemS
      have hr0_le : r0.score ≤ 1 := by
        have hr0res : r0 ∈ batch.filterMap (InMemoryVectorStore.scanItem v) := by
          refine (List.perm_insertionSort scoreGe _).mem_iff.mp ?_
          rw [hS]
          exact List.mem_cons_self r0 rest
        rcases List.mem_filterMap.mp hr0res with ⟨d', hd', hsc⟩
        exact scanItem_score_le_one v d' r0 hsc
      have hr0_ge : (1 : ℚ) ≤ r0.score := by
        rcases List.mem_cons.mp hmemS with hh | hh
        · rw [← hh]
        · have := (List.pairwise_cons.mp hsorted).1 _ hh
          simpa [scoreGe] using this
      exact ⟨⟨r0, rfl, le_antisymm hr0_le hr0_ge⟩, hmemS⟩
  · simp only [InMemoryVectorStore.search, memAB, InMemoryVectorStore.add_documents,
      List.nil_append, List.filterMap_cons, List.filterMap_nil,
      InMemoryVectorStore.scanItem, docA, docB]
    norm_num [skey, sumSq, dot, List.insertionSort, List.orderedInsert, scoreGe]
  · simp only [InMemoryVectorStore.search, memAB, InMemoryVectorStore.add_documents,
      List.nil_append, List.filterMap_cons, List.filterMap_nil,
      InMemoryVectorStore.scanItem, docA, docB]
    norm_num [skey, sumSq, dot, List.insertionSort, List.orderedInsert, scoreGe]
    rw [abs_of_nonneg (by norm_num : (0:ℚ) ≤ 9/10),
      abs_of_nonneg (by norm_num : (0:ℚ) ≤ 1/10)]
    norm_num

/-- C7 (witness): the general clause applied to the concrete scenario
batch [docA, docB] with query docA's own embedding and k = 2. -/
theorem claim_C7_self_query_top_witness :
    (∃ r0, (memAB.search [1, 0, 0] 2).head? = some r0 ∧ r0.score = 1)
    ∧ (⟨docA, 1⟩ : SearchResult) ∈ memAB.search [1, 0, 0] 2 :=
  claim_C7_self_query_top.1 [docA, docB] docA [1, 0, 0] 2
    (by intro d hd
        fin_cases hd
        · exact ⟨[1, 0, 0], rfl, by norm_num [sumSq, dot]⟩
        · exact ⟨[0, 1, 0], rfl, by norm_num [sumSq, dot]⟩)
    (List.mem_cons_self docA [docB])
    rfl
    (by norm_num)
